import Mathlib

set_option autoImplicit false

namespace Photonic


/-- A record of the `PhotonicCache` object store: one encrypted study blob.
Only the fields the cache governor reads (`uid`, `size`, `ts`) are carried;
the ciphertext/key/iv payload is irrelevant to eviction. -/
structure CachedBlob where
  uid : String
  size : Nat
  ts : Nat
  deriving Repr, DecidableEq

/-- `idbTotalSize` (core.js): `studies.reduce((total, study) => total + (study.size || 0), 0)`. -/
def idbTotalSize (studies : List CachedBlob) : Nat :=
  studies.foldl (fun total study => total + study.size) 0

/-- `gbToBytes` (core.js): `gb * 1073741824`. -/
def gbToBytes (gb : Nat) : Nat :=
  gb * 1073741824

/-- The deletion loop of `enforceQuota` (background.js), survivors view: walking the
age-ascending list, a blob is deleted while `currentSize - freedBytes > maxBytes`
(the loop breaks as soon as `currentSize - freedBytes <= maxBytes`); the returned
list is what remains in the store. -/
def quotaSurvivors (maxBytes currentSize freedBytes : Nat) : List CachedBlob → List CachedBlob
  | [] => []
  | study :: rest =>
    if currentSize - freedBytes ≤ maxBytes then study :: rest
    else quotaSurvivors maxBytes currentSize (freedBytes + study.size) rest

/-- The deletion loop of `enforceQuota` (background.js), deletions view: the blobs
the loop passes to `idbDelete`, in deletion order. -/
def quotaDeleted (maxBytes currentSize freedBytes : Nat) : List CachedBlob → List CachedBlob
  | [] => []
  | study :: rest =>
    if currentSize - freedBytes ≤ maxBytes then []
    else study :: quotaDeleted maxBytes currentSize (freedBytes + study.size) rest

/-- `enforceQuota` (background.js) past its settings guard, parameterised by the
byte quota: compute `currentSize = idbTotalSize()`; return unchanged when already
at or under quota; otherwise delete oldest-first until at or under quota.
`storeByAge` is the store as returned by `idbGetByAge` (ascending `ts`). -/
def enforceQuotaSweep (maxBytes : Nat) (storeByAge : List CachedBlob) : List CachedBlob :=
  if idbTotalSize storeByAge ≤ maxBytes then storeByAge
  else quotaSurvivors maxBytes (idbTotalSize storeByAge) 0 storeByAge

/-- `enforceQuota` (background.js) including the guard: `if (!settings || !settings.maxGB) return;`
then `maxBytes = gbToBytes(settings.maxGB)` and the sweep. -/
def enforceQuota (maxGB : Nat) (storeByAge : List CachedBlob) : List CachedBlob :=
  if maxGB = 0 then storeByAge else enforceQuotaSweep (gbToBytes maxGB) storeByAge

/-- TTL cutoff of `cleanupCache` (background.js):
`Date.now() - settings.ttlDays * 24 * 60 * 60 * 1000` (truncated at zero). -/
def ttlCutoff (now ttlDays : Nat) : Nat :=
  now - ttlDays * 86400000

/-- The deletion loop of `cleanupCache` (background.js): every blob with
`study.ts < cutoff` is deleted; the returned list is what remains. -/
def ttlSweep (cutoff : Nat) : List CachedBlob → List CachedBlob
  | [] => []
  | study :: rest =>
    if study.ts < cutoff then ttlSweep cutoff rest
    else study :: ttlSweep cutoff rest

/-- `cleanupCache` (background.js) including the guard
`if (!settings || !settings.ttlDays) return;`. -/
def cleanupCache (ttlDays now : Nat) (store : List CachedBlob) : List CachedBlob :=
  if ttlDays = 0 then store else ttlSweep (ttlCutoff now ttlDays) store

/-- ASCII case folding of JavaScript `toLowerCase()`. -/
def jsToLowerChar (c : Char) : Char :=
  if 'A' ≤ c ∧ c ≤ 'Z' then Char.ofNat (c.toNat + 32) else c

/-- The `normalize` closure of `arePatientNamesMatching` (study-downloader.js):
`name.toLowerCase().replace(/[^a-z0-9]/g, '').trim()`. -/
def normalizeName (name : List Char) : List Char :=
  (name.map jsToLowerChar).filter
    (fun c => decide (('a' ≤ c ∧ c ≤ 'z') ∨ ('0' ≤ c ∧ c ≤ '9')))

/-- The positional match counter of `arePatientNamesMatching`: the number of
indices `i < minLength` with `normalized1[i] === normalized2[i]`. -/
def matchCount (l1 l2 : List Char) : Nat :=
  (l1.zip l2).countP (fun p => p.1 == p.2)

/-- `arePatientNamesMatching` (study-downloader.js): falsy guard, normalize,
exact match, containment either way, the length-ratio cutoff
(`minLength / maxLength < 0.5` → different people), then the 80 %
positional-similarity test. -/
def arePatientNamesMatching (name1 name2 : List Char) : Bool :=
  if name1 = [] ∨ name2 = [] then false
  else if normalizeName name1 = normalizeName name2 then true
  else if normalizeName name2 <:+: normalizeName name1 ∨
      normalizeName name1 <:+: normalizeName name2 then true
  else if 2 * min (normalizeName name1).length (normalizeName name2).length <
      max (normalizeName name1).length (normalizeName name2).length then false
  else decide (4 * min (normalizeName name1).length (normalizeName name2).length ≤
      5 * matchCount (normalizeName name1) (normalizeName name2))

/-- The acceptance criterion in the words of the claim/spec for C4 (refinement
reference, deliberately written from the spec text, not from the source):
accept iff the normalized strings are equal, one contains the other, or the
per-character similarity is at least 80 % of the shorter string's length.  The
source's additional falsy guard and `minLength / maxLength < 0.5` cutoff are
absent here; the counterexample theorem shows the two disagree. -/
def specNameMatchCriterion (name1 name2 : List Char) : Prop :=
  normalizeName name1 = normalizeName name2 ∨
  normalizeName name2 <:+: normalizeName name1 ∨
  normalizeName name1 <:+: normalizeName name2 ∨
  4 * min (normalizeName name1).length (normalizeName name2).length ≤
    5 * matchCount (normalizeName name1) (normalizeName name2)

/-!
Scheduling model of `downloadStudiesInParallel` (study-downloader.js).
The function keeps a queue and a set of in-flight download promises
(`activeDownloads`); `processNext` starts queued downloads while
`activeDownloads.size < maxConcurrent`, and each completion handler removes its
promise from the set and calls `processNext` again.  The event-loop semantics is
therefore: an initial fill, then, on each completion (an external choice of
which in-flight download finishes), remove it and refill the free slots.
Studies are identified by `Nat` tags; `choices` picks, by index into the
in-flight list, which download completes next. -/
structure SchedState where
  queue : List Nat
  active : List Nat
  done : List Nat
  deriving Repr, DecidableEq

/-- The `while (activeDownloads.size < maxConcurrent && downloadQueue.length > 0)`
loop of `processNext`: shift studies from the queue into the in-flight set while
there is capacity; returns the remaining queue and the new in-flight list. -/
def refillSlots (maxConcurrent : Nat) : List Nat → List Nat → List Nat × List Nat
  | [], active => ([], active)
  | s :: rest, active =>
    if active.length < maxConcurrent then refillSlots maxConcurrent rest (active ++ [s])
    else (s :: rest, active)

/-- Initial state of `downloadStudiesInParallel`: the first `processNext` call
fills up to `maxConcurrent` slots from the full queue. -/
def schedStart (maxConcurrent : Nat) (studies : List Nat) : SchedState :=
  { queue := (refillSlots maxConcurrent studies []).1
    active := (refillSlots maxConcurrent studies []).2
    done := [] }

/-- One completion event: the `i`-th in-flight download settles, its handler
pushes the result, deletes the promise from `activeDownloads` and re-runs
`processNext`, which immediately refills the freed slot from the queue. -/
def schedComplete (maxConcurrent : Nat) (st : SchedState) (i : Nat) : SchedState :=
  if h : i < st.active.length then
    { queue := (refillSlots maxConcurrent st.queue (st.active.eraseIdx i)).1
      active := (refillSlots maxConcurrent st.queue (st.active.eraseIdx i)).2
      done := st.done ++ [st.active.get ⟨i, h⟩] }
  else st

/-- A run of `downloadStudiesInParallel`: the initial fill followed by the given
sequence of completion events. -/
def runSched (maxConcurrent : Nat) (studies : List Nat) (choices : List Nat) : SchedState :=
  choices.foldl (schedComplete maxConcurrent) (schedStart maxConcurrent studies)

/-- `options.maxConcurrent || 3` in `triggerStudyDownloads` (study-downloader.js). -/
def triggerMaxConcurrent (options : Option Nat) : Nat :=
  match options with
  | none => 3
  | some n => if n = 0 then 3 else n

/-- The batching discipline asserted by C9, stated over the scheduler: whenever a
study beyond the first `maxConcurrent` ("the first batch") is in flight, the whole
first batch has already completed — i.e. a batch is awaited in full before the
next batch starts. -/
def firstBatchAwaited (maxConcurrent : Nat) (studies : List Nat) : Prop :=
  ∀ choices : List Nat, ∀ s ∈ (runSched maxConcurrent studies choices).active,
    s ∈ studies.drop maxConcurrent →
      ∀ t ∈ studies.take maxConcurrent, t ∈ (runSched maxConcurrent studies choices).done

/-- Modelled from the spec: the `window.crypto.subtle` AES-GCM ciphertext, as an
ideal authenticated-encryption box (the platform primitive is not in the source
tree).  `encKey`/`encIv` record the sealing key and IV; `payload` the plaintext. -/
structure SymCipherText where
  encKey : Nat
  encIv : Nat
  payload : List Nat
  deriving Repr, DecidableEq

/-- Modelled from the spec: `crypto.subtle.encrypt({name: 'AES-GCM', iv}, key, data)`. -/
def subtleEncrypt (key iv : Nat) (data : List Nat) : SymCipherText :=
  { encKey := key, encIv := iv, payload := data }

/-- Modelled from the spec: `crypto.subtle.decrypt({name: 'AES-GCM', iv}, key, c)`;
`none` is the rejection (`DecryptionError`) of an inconsistent tuple. -/
def subtleDecrypt (key iv : Nat) (c : SymCipherText) : Option (List Nat) :=
  if c.encKey = key ∧ c.encIv = iv then some c.payload else none

/-- The record returned by `encryptBlob`: `{cipherText, key, iv, originalSize}`. -/
structure EncryptedData where
  cipherText : SymCipherText
  key : Nat
  iv : Nat
  originalSize : Nat
  deriving Repr, DecidableEq

/-- The platform randomness consumed by `crypto.subtle.generateKey` and
`crypto.getRandomValues`: an arbitrary stream of raw random values and a
position marking how much has been consumed. -/
structure RandomSource where
  stream : Nat → Nat
  pos : Nat

/-- `encryptBlob` (encryption.js / core.js): generate a fresh random 256-bit
AES-GCM key and a fresh random 96-bit IV (12 bytes) at the current positions of
the randomness source, export the key, encrypt the blob, and return
`{cipherText, key, iv, originalSize}` together with the advanced source. -/
def encryptBlob (rng : RandomSource) (blob : List Nat) : EncryptedData × RandomSource :=
  ({ cipherText := subtleEncrypt (rng.stream rng.pos % 2 ^ 256)
        (rng.stream (rng.pos + 1) % 2 ^ 96) blob
     key := rng.stream rng.pos % 2 ^ 256
     iv := rng.stream (rng.pos + 1) % 2 ^ 96
     originalSize := blob.length },
   { stream := rng.stream, pos := rng.pos + 2 })

/-- `decryptToBlob` (encryption.js / core.js): import `encryptedData.key` and
decrypt `encryptedData.cipherText` under `encryptedData.iv`; `none` is the
thrown `'Failed to decrypt data'` error. -/
def decryptToBlob (encryptedData : EncryptedData) : Option (List Nat) :=
  subtleDecrypt encryptedData.key encryptedData.iv encryptedData.cipherText

/-- The `STUDY_STATUS` enum (core.js). -/
inductive StudyStatus
  | pending
  | download
  | downloaded
  | error
  | skipped
  | deleted
  deriving Repr, DecidableEq

/-- Error messages of the download pipeline, one constructor per thrown message
template: `'Invalid study data: missing study_instance_uid'`,
`'Invalid authentication token provided'`, resolution failure
(HTTP error in `fetchInternalUuid`), `'Failed to get valid internal UUID for
study ...'`, `'Patient name mismatch: Expected "..." but got "..."'`, ZIP fetch
failure, `'Study with ID ... not found'` (from `studiesDbUpdateStatus`), and the
record-default literal string `'None'`. -/
inductive ErrMsg
  | errNone
  | invalidStudyData
  | invalidToken
  | resolutionFailed
  | invalidUuid (studyId : String) (got : String)
  | patientMismatch (expected actual : String)
  | fetchFailed
  | notFound (studyId : String)
  deriving Repr, DecidableEq

/-- The record schema written by `studiesDbPut` (core.js), plus `download_id`
(added dynamically by `downloadSingleStudy`'s success patch and absent — `none`
— in freshly put records, since `studiesDbPut`'s record literal omits it). -/
structure StudyRecord where
  study_id : String
  patient_name : String
  patient_id : String
  diag_centre_name : String
  status : StudyStatus
  download_time : Option String
  delete_time : Option String
  error : Option ErrMsg
  created_at : String
  updated_at : String
  study_instance_uid : String
  study_instance_uuid : Option String
  file_path : Option String
  file_size : Option Nat
  priority : Nat
  retry_count : Nat
  last_retry : Option String
  download_id : Option Nat
  deriving Repr, DecidableEq

/-- Input object accepted by `studiesDbPut` (an arbitrary study object whose
fields may be absent/null); `studiesDbPut` normalises it with `||` defaults. -/
structure StudyInput where
  study_id : String
  patient_name : Option String := none
  patient_id : Option String := none
  diag_centre_name : Option String := none
  status : Option StudyStatus := none
  download_time : Option String := none
  delete_time : Option String := none
  error : Option ErrMsg := none
  created_at : Option String := none
  study_instance_uid : Option String := none
  study_instance_uuid : Option String := none
  file_path : Option String := none
  file_size : Option Nat := none
  priority : Option Nat := none
  retry_count : Option Nat := none
  last_retry : Option String := none
  deriving Repr, DecidableEq

/-- JavaScript `v || d` for string-valued fields: absent, `null` and `''` are
falsy and give the default. -/
def jsOrString (v : Option String) (d : String) : String :=
  match v with
  | none => d
  | some s => if s = "" then d else s

/-- JavaScript `v || null` for string-valued fields: truthy values pass through,
falsy ones become `null`. -/
def jsTruthyString (v : Option String) : Option String :=
  match v with
  | none => none
  | some s => if s = "" then none else some s

/-- JavaScript `v || d` for number-valued fields: absent, `null` and `0` are
falsy and give the default. -/
def jsOrNat (v : Option Nat) (d : Nat) : Nat :=
  match v with
  | none => d
  | some n => if n = 0 then d else n

/-- The record literal built by `studiesDbPut` (core.js): every field normalised
with its `||` default; `status || STUDY_STATUS.DOWNLOAD`, `error || 'None'`,
`created_at || new Date().toISOString()`, `updated_at` always the current time;
`download_id` is not in the literal, so it is dropped (`none`). -/
def studiesDbPutRecord (studyData : StudyInput) (now : String) : StudyRecord :=
  { study_id := studyData.study_id
    patient_name := jsOrString studyData.patient_name ""
    patient_id := jsOrString studyData.patient_id ""
    diag_centre_name := jsOrString studyData.diag_centre_name ""
    status := studyData.status.getD .download
    download_time := jsTruthyString studyData.download_time
    delete_time := jsTruthyString studyData.delete_time
    error := some (studyData.error.getD .errNone)
    created_at := jsOrString studyData.created_at now
    updated_at := now
    study_instance_uid := jsOrString studyData.study_instance_uid ""
    study_instance_uuid := some (jsOrString studyData.study_instance_uuid "")
    file_path := some (jsOrString studyData.file_path "")
    file_size := some (jsOrNat studyData.file_size 0)
    priority := jsOrNat studyData.priority 0
    retry_count := jsOrNat studyData.retry_count 0
    last_retry := jsTruthyString studyData.last_retry
    download_id := none }

/-- IndexedDB `store.get(studyId)` on the studies store. -/
def dbGet (db : List StudyRecord) (studyId : String) : Option StudyRecord :=
  db.find? (fun r => r.study_id == studyId)

/-- IndexedDB `store.put(record)` on a store with `keyPath: 'study_id'`:
replaces the entry with the same key, or appends a new entry. -/
def dbPutRaw (db : List StudyRecord) (record : StudyRecord) : List StudyRecord :=
  if db.any (fun r => r.study_id == record.study_id) then
    db.map (fun r => if r.study_id == record.study_id then record else r)
  else db ++ [record]

/-- `studiesDbPut` (core.js): normalise the input and `put` it. -/
def studiesDbPut (db : List StudyRecord) (studyData : StudyInput) (now : String) :
    List StudyRecord :=
  dbPutRaw db (studiesDbPutRecord studyData now)

/-- The `additionalData` objects passed to `studiesDbUpdateStatus` across the
codebase, as an open record of optional overrides.  The outer `Option` is
field presence in the patch object; the inner `Option` (where present) is the
written value, `none` being an explicit `null` (e.g. `deleteStudy` passes
`file_path: null`).  No call site passes `status` or `updated_at` in the patch. -/
structure UpdatePatch where
  study_instance_uuid : Option (Option String) := none
  file_path : Option (Option String) := none
  file_size : Option (Option Nat) := none
  download_time : Option (Option String) := none
  download_id : Option (Option Nat) := none
  error : Option (Option ErrMsg) := none
  retry_count : Option Nat := none
  last_retry : Option (Option String) := none
  delete_time : Option (Option String) := none
  deriving Repr, DecidableEq

/-- The merge performed by `studiesDbUpdateStatus`:
`{...study, status, updated_at: now, ...additionalData}`. -/
def applyUpdate (study : StudyRecord) (status : StudyStatus) (now : String)
    (additionalData : UpdatePatch) : StudyRecord :=
  { study with
    status := status
    updated_at := now
    study_instance_uuid := additionalData.study_instance_uuid.getD study.study_instance_uuid
    file_path := additionalData.file_path.getD study.file_path
    file_size := additionalData.file_size.getD study.file_size
    download_time := additionalData.download_time.getD study.download_time
    download_id := additionalData.download_id.getD study.download_id
    error := additionalData.error.getD study.error
    retry_count := additionalData.retry_count.getD study.retry_count
    last_retry := additionalData.last_retry.getD study.last_retry
    delete_time := additionalData.delete_time.getD study.delete_time }

/-- `studiesDbUpdateStatus` (core.js): read the current record; if absent,
reject with `Study with ID ... not found` leaving the store untouched;
otherwise merge status, `updated_at` and the patch, put the merged record back,
and resolve with it.  Returns the outcome together with the resulting store. -/
def studiesDbUpdateStatus (db : List StudyRecord) (studyId : String)
    (status : StudyStatus) (additionalData : UpdatePatch) (now : String) :
    Except ErrMsg StudyRecord × List StudyRecord :=
  match dbGet db studyId with
  | none => (.error (.notFound studyId), db)
  | some study =>
    (.ok (applyUpdate study status now additionalData),
     dbPutRaw db (applyUpdate study status now additionalData))

/-- The `additionalData` of `handleTriggerDownloads`' success path
(background.js: `studiesDbUpdateStatus(study.study_id, STUDY_STATUS.DOWNLOADED,
{ download_time: new Date().toISOString() })`) — note: no `file_path`. -/
def triggerDownloadsSuccessPatch (now : String) : UpdatePatch :=
  { download_time := some (some now) }

/-- The C2 invariant as the spec states it: `status == DOWNLOADED` iff
`file_path` is non-null and non-empty. -/
def statusFilePathInvariant (r : StudyRecord) : Prop :=
  r.status = StudyStatus.downloaded ↔ (r.file_path ≠ none ∧ r.file_path ≠ some "")

/-- The study object produced by `cleanStudyData` (study-fetcher.js) for a
worklist entry with UID `"1.2.3"` and patient `"SMITH_JOHN"`: `study_id` is the
UID, status `PENDING`, `error: 'None'`, `download_time`/`delete_time` null. -/
def syncInputSmith : StudyInput :=
  { study_id := "1.2.3"
    patient_name := some "SMITH_JOHN"
    patient_id := some "MRN1"
    status := some .pending
    error := some .errNone
    created_at := some "t0"
    study_instance_uid := some "1.2.3" }

/-- Store after the first worklist sync stores the new study
(`storeStudiesInDatabase` → `studiesDbPut`). -/
def c2State0 : List StudyRecord :=
  studiesDbPut [] syncInputSmith "t0"

/-- Store after the user marks the study for download
(study-manager: `studiesDbUpdateStatus(studyId, STUDY_STATUS.DOWNLOAD)`). -/
def c2State1 : List StudyRecord :=
  (studiesDbUpdateStatus c2State0 "1.2.3" .download {} "t1").2

/-- Store after `handleTriggerDownloads` downloads the study into the encrypted
cache and runs its success update — which sets status `DOWNLOADED` with only
`download_time`, never `file_path`. -/
def c2State2 : List StudyRecord :=
  (studiesDbUpdateStatus c2State1 "1.2.3" .downloaded
    (triggerDownloadsSuccessPatch "t2") "t2").2

/-- The `stored`/`updated`/`errors` summary returned by `storeStudiesInDatabase`. -/
structure StoreResult where
  total : Nat
  stored : Nat
  updated : Nat
  errors : Nat
  deriving Repr, DecidableEq

/-- The `updatedStudy` object of `storeStudiesInDatabase` (study-fetcher.js):
the incoming cleaned study with the existing record's status, timestamps, error
and processing fields preserved. -/
def updatedStudyInput (study : StudyInput) (existingStudy : StudyRecord) : StudyInput :=
  { study with
    status := some existingStudy.status
    download_time := existingStudy.download_time
    delete_time := existingStudy.delete_time
    error := existingStudy.error
    created_at := some existingStudy.created_at
    study_instance_uuid := existingStudy.study_instance_uuid
    file_path := existingStudy.file_path
    file_size := existingStudy.file_size
    priority := some existingStudy.priority
    retry_count := some existingStudy.retry_count
    last_retry := existingStudy.last_retry }

/-- The per-study loop of `storeStudiesInDatabase`: look up each study by id;
if present, put the merged `updatedStudy` and count it `updated`; otherwise put
the new study and count it `stored`.  Returns the store with both counters. -/
def storeStudiesGo (now : String) :
    List StudyRecord → List StudyInput → Nat → Nat → List StudyRecord × Nat × Nat
  | db, [], stored, updated => (db, stored, updated)
  | db, study :: rest, stored, updated =>
    match dbGet db study.study_id with
    | some existingStudy =>
      storeStudiesGo now (studiesDbPut db (updatedStudyInput study existingStudy) now)
        rest stored (updated + 1)
    | none =>
      storeStudiesGo now (studiesDbPut db study now) rest (stored + 1) updated

/-- `storeStudiesInDatabase` (study-fetcher.js). -/
def storeStudiesInDatabase (db : List StudyRecord) (studies : List StudyInput)
    (now : String) : List StudyRecord × StoreResult :=
  ((storeStudiesGo now db studies 0 0).1,
   { total := studies.length
     stored := (storeStudiesGo now db studies 0 0).2.1
     updated := (storeStudiesGo now db studies 0 0).2.2
     errors := 0 })

/-- A worklist entry as seen by `pollWorklist`/`shouldDownloadStudy`. -/
structure WorklistStudy where
  study_instance_uid : String
  patient_name : String
  study_date : String
  status : String
  deriving Repr, DecidableEq

/-- `idbHasStudy` (core.js): `(await idbGet(uid)) !== null`. -/
def idbHasStudy (cache : List CachedBlob) (uid : String) : Bool :=
  cache.any (fun b => b.uid == uid)

/-- `idbPut` (core.js) on the cache store (`keyPath: 'uid'`): keyed upsert. -/
def idbPut (cache : List CachedBlob) (blob : CachedBlob) : List CachedBlob :=
  if cache.any (fun b => b.uid == blob.uid) then
    cache.map (fun b => if b.uid == blob.uid then blob else b)
  else cache ++ [blob]

/-- `shouldDownloadStudy` (background.js): skip studies already cached
(`idbHasStudy`), then apply the configured status filter
(`settings.filters && settings.filters.status`; a falsy filter means no
filtering). -/
def shouldDownloadStudy (cache : List CachedBlob) (filterStatus : Option String)
    (study : WorklistStudy) : Bool :=
  if idbHasStudy cache study.study_instance_uid then false
  else
    match filterStatus with
    | some f => if f = "" then true else study.status == f
    | none => true

/-- The download loop of `pollWorklist` (background.js): for each worklist
study passing `shouldDownloadStudy`, attempt the download (`fetchStudy` models
`downloadStudy`'s network outcome: the encrypted blob put into the cache, or
`none` for a caught failure) and count successes. -/
def pollWorklistLoop (filterStatus : Option String)
    (fetchStudy : WorklistStudy → Option CachedBlob) :
    List WorklistStudy → List CachedBlob → Nat → List CachedBlob × Nat
  | [], cache, downloadCount => (cache, downloadCount)
  | study :: rest, cache, downloadCount =>
    if shouldDownloadStudy cache filterStatus study then
      match fetchStudy study with
      | some blob =>
        pollWorklistLoop filterStatus fetchStudy rest (idbPut cache blob) (downloadCount + 1)
      | none => pollWorklistLoop filterStatus fetchStudy rest cache downloadCount
    else pollWorklistLoop filterStatus fetchStudy rest cache downloadCount

/-- The `{uuid, patientName}` object returned by `fetchInternalUuid`;
`patientName` comes from `data.study_data?.patient_name` and may be absent. -/
structure ResolveResult where
  uuid : String
  patientName : Option String
  deriving Repr, DecidableEq

/-- The result of `downloadStudyZip`/`saveZipFile`: the saved file. -/
structure ZipFile where
  filePath : String
  fileSize : Nat
  downloadId : Nat
  deriving Repr, DecidableEq

/-- Environment of one `downloadSingleStudy` run: outcomes of the two network
steps. -/
structure DownloadEnv where
  resolve : Option ResolveResult
  fetchZip : Option ZipFile
  deriving Repr, DecidableEq

/-- The result object `downloadSingleStudy` resolves with. -/
structure DownloadResult where
  study_id : String
  success : Bool
  patient_name : String
  file_path : Option String
  file_size : Option Nat
  error : Option ErrMsg
  deriving Repr, DecidableEq

/-- A `downloadSingleStudy` run's outcome: the result object, the studies store
afterwards, and the files written to disk. -/
structure DownloadOutcome where
  result : DownloadResult
  db : List StudyRecord
  savedFiles : List ZipFile
  deriving Repr, DecidableEq

/-- The `additionalData` of `downloadSingleStudy`'s catch block:
`{error: error.message, retry_count: (study.retry_count || 0) + 1,
last_retry: new Date().toISOString()}`. -/
def downloadFailurePatch (msg : ErrMsg) (retryCount : Nat) (now : String) : UpdatePatch :=
  { error := some (some msg)
    retry_count := some (retryCount + 1)
    last_retry := some (some now) }

/-- The catch block of `downloadSingleStudy`: update the record to ERROR with
the message and incremented retry count (a failing update is swallowed — the
store stays as it was), and resolve with a failure result. -/
def downloadFail (study : StudyRecord) (msg : ErrMsg) (now : String)
    (db : List StudyRecord) (savedFiles : List ZipFile) : DownloadOutcome :=
  { result := { study_id := study.study_id
                success := false
                patient_name := study.patient_name
                file_path := none
                file_size := none
                error := some msg }
    db := (studiesDbUpdateStatus db study.study_id .error
      (downloadFailurePatch msg study.retry_count now) now).2
    savedFiles := savedFiles }

/-- The patient-name cross-check guard of `downloadSingleStudy`
(study-downloader.js:
`expectedPatientName && actualPatientName && !arePatientNamesMatching(...)`):
true exactly when both names are truthy and the fuzzy match fails. -/
def mismatchGuard (expected : String) (actual : Option String) : Bool :=
  match actual with
  | none => false
  | some a =>
    if expected = "" then false
    else if a = "" then false
    else ! arePatientNamesMatching expected.data a.data

/-- `downloadSingleStudy` (study-downloader.js): validate the study's
`study_instance_uid` and the token; resolve the internal UUID and validate it
(`!uuid || uuid === 'undefined' || uuid.trim() === ''` — the trim test is
embedded as "every character is whitespace"); cross-check the
patient name; record the UUID on the record (status stays DOWNLOAD); fetch and
save the ZIP; then mark the record DOWNLOADED with `file_path`, `file_size`,
`download_time` and `download_id`.  Any failure runs the catch block
(`downloadFail`). -/
def downloadSingleStudy (env : DownloadEnv) (study : StudyRecord)
    (token : Option String) (db : List StudyRecord) (savedFiles : List ZipFile)
    (now : String) : DownloadOutcome :=
  if study.study_instance_uid = "" then
    downloadFail study .invalidStudyData now db savedFiles
  else if token = none ∨ token = some "" then
    downloadFail study .invalidToken now db savedFiles
  else
    match env.resolve with
    | none => downloadFail study .resolutionFailed now db savedFiles
    | some result =>
      if result.uuid = "" ∨ result.uuid = "undefined" ∨
          result.uuid.data.all Char.isWhitespace then
        downloadFail study (.invalidUuid study.study_id result.uuid) now db savedFiles
      else if mismatchGuard study.patient_name result.patientName then
        downloadFail study
          (.patientMismatch study.patient_name (result.patientName.getD ""))
          now db savedFiles
      else
        match studiesDbUpdateStatus db study.study_id .download
            { study_instance_uuid := some (some result.uuid) } now with
        | (.error _, db1) => downloadFail study (.notFound study.study_id) now db1 savedFiles
        | (.ok _, db1) =>
          match env.fetchZip with
          | none => downloadFail study .fetchFailed now db1 savedFiles
          | some zip =>
            match studiesDbUpdateStatus db1 study.study_id .downloaded
                { file_path := some (some zip.filePath)
                  file_size := some (some zip.fileSize)
                  download_time := some (some now)
                  download_id := some (some zip.downloadId) } now with
            | (.error _, db2) =>
              downloadFail study (.notFound study.study_id) now db2 (savedFiles ++ [zip])
            | (.ok _, db2) =>
              { result := { study_id := study.study_id
                            success := true
                            patient_name := study.patient_name
                            file_path := some zip.filePath
                            file_size := some zip.fileSize
                            error := none }
                db := db2
                savedFiles := savedFiles ++ [zip] }

/-- A study record resolved against the wrong patient in the C3/C10 witnesses:
locally held name `"SMITH, JOHN"`, external UID `"1.2.3"`. -/
def smithInput : StudyInput :=
  { study_id := "s1"
    patient_name := some "SMITH, JOHN"
    study_instance_uid := some "1.2.3" }

theorem idbTotalSize_eq_sum (studies : List CachedBlob) :
    idbTotalSize studies = (studies.map CachedBlob.size).sum := by
  suffices h : ∀ init, studies.foldl (fun total study => total + study.size) init =
      init + (studies.map CachedBlob.size).sum by
    simpa [idbTotalSize] using h 0
  induction studies with
  | nil => intro init; simp
  | cons b rest ih =>
    intro init
    simp [List.foldl_cons, ih, List.map_cons, List.sum_cons]
    omega

theorem quotaSurvivors_append_deleted (maxBytes currentSize : Nat) :
    ∀ (l : List CachedBlob) (freedBytes : Nat),
      quotaDeleted maxBytes currentSize freedBytes l ++
        quotaSurvivors maxBytes currentSize freedBytes l = l := by
  intro l
  induction l with
  | nil => intro freed; simp [quotaDeleted, quotaSurvivors]
  | cons b rest ih =>
    intro freed
    by_cases h : currentSize - freed ≤ maxBytes
    · simp [quotaDeleted, quotaSurvivors, h]
    · simp [quotaDeleted, quotaSurvivors, h, ih]

theorem quotaSurvivors_size_le (maxBytes currentSize : Nat) :
    ∀ (l : List CachedBlob) (freedBytes : Nat),
      currentSize = freedBytes + idbTotalSize l →
      idbTotalSize (quotaSurvivors maxBytes currentSize freedBytes l) ≤ maxBytes := by
  intro l
  induction l with
  | nil => intro freed _; simp [quotaSurvivors, idbTotalSize]
  | cons b rest ih =>
    intro freed hinv
    by_cases h : currentSize - freed ≤ maxBytes
    · have hsz : idbTotalSize (b :: rest) = currentSize - freed := by omega
      simp [quotaSurvivors, h, hsz]
    · have hinv' : currentSize = (freed + b.size) + idbTotalSize rest := by
        rw [idbTotalSize_eq_sum] at hinv ⊢
        simp [List.map_cons, List.sum_cons] at hinv
        omega
      simpa [quotaSurvivors, h] using ih (freed + b.size) hinv'

theorem quotaSurvivors_maximal (maxBytes currentSize : Nat) :
    ∀ (l : List CachedBlob) (freedBytes : Nat),
      currentSize = freedBytes + idbTotalSize l →
      ∀ s : List CachedBlob, s <:+ l → idbTotalSize s ≤ maxBytes →
        s.length ≤ (quotaSurvivors maxBytes currentSize freedBytes l).length := by
  intro l
  induction l with
  | nil =>
    intro freed _ s hs _
    have := hs.length_le
    simpa [quotaSurvivors] using this
  | cons b rest ih =>
    intro freed hinv s hs hsize
    by_cases h : currentSize - freed ≤ maxBytes
    · simpa [quotaSurvivors, h] using hs.length_le
    · rw [List.suffix_cons_iff] at hs
      rcases hs with rfl | hs
      · exfalso
        have : idbTotalSize (b :: rest) = currentSize - freed := by omega
        omega
      · have hinv' : currentSize = (freed + b.size) + idbTotalSize rest := by
          rw [idbTotalSize_eq_sum] at hinv ⊢
          simp [List.map_cons, List.sum_cons] at hinv
          omega
        simpa [quotaSurvivors, h] using ih (freed + b.size) hinv' s hs hsize

theorem enforceQuotaSweep_suffix (maxBytes : Nat) (storeByAge : List CachedBlob) :
    enforceQuotaSweep maxBytes storeByAge <:+ storeByAge := by
  unfold enforceQuotaSweep
  by_cases h : idbTotalSize storeByAge ≤ maxBytes
  · simp [h]
  · simp only [h, if_false]
    exact ⟨quotaDeleted maxBytes (idbTotalSize storeByAge) 0 storeByAge,
      quotaSurvivors_append_deleted maxBytes (idbTotalSize storeByAge) storeByAge 0⟩

/-- C1.  The quota sweep `enforceQuota` (background.js), run on any cache state
presented in age order (as `idbGetByAge` returns it), (a) leaves
`totalSize() <= maxBytes`; (b) deletes a prefix of the age-ascending list — i.e.
whole blobs in ascending insertion-time order, the remaining store being a suffix;
(c) the deleted blobs are themselves in ascending `ts` order; and (d) the retained
set is exactly the newest-by-insertion-time subset achieving the bound: no longer
suffix of the age ordering fits within `maxBytes`.  The concrete scenario
(5 blobs of 30 MB, 100 MB quota, 3 newest retained) is the witness theorem. -/
theorem quota_sweep_retains_newest (maxBytes : Nat) (storeByAge : List CachedBlob)
    (hsorted : storeByAge.Pairwise (fun a b => a.ts ≤ b.ts)) :
    idbTotalSize (enforceQuotaSweep maxBytes storeByAge) ≤ maxBytes ∧
    quotaDeleted maxBytes (idbTotalSize storeByAge) 0 storeByAge ++
        enforceQuotaSweep maxBytes storeByAge = storeByAge ∧
    (quotaDeleted maxBytes (idbTotalSize storeByAge) 0 storeByAge).Pairwise
        (fun a b => a.ts ≤ b.ts) ∧
    enforceQuotaSweep maxBytes storeByAge <:+ storeByAge ∧
    (∀ s : List CachedBlob, s <:+ storeByAge → idbTotalSize s ≤ maxBytes →
      s.length ≤ (enforceQuotaSweep maxBytes storeByAge).length) ∧
    (∀ maxGB : Nat, maxGB ≠ 0 →
      enforceQuota maxGB storeByAge = enforceQuotaSweep (gbToBytes maxGB) storeByAge) := by
  have hinv : idbTotalSize storeByAge = 0 + idbTotalSize storeByAge := by omega
  by_cases h : idbTotalSize storeByAge ≤ maxBytes
  · have hempty : quotaDeleted maxBytes (idbTotalSize storeByAge) 0 storeByAge = [] := by
      cases storeByAge with
      | nil => rfl
      | cons b rest => simp [quotaDeleted, h]
    refine ⟨by simp [enforceQuotaSweep, h], ?_, ?_, enforceQuotaSweep_suffix _ _, ?_, ?_⟩
    · simp [hempty, enforceQuotaSweep, h]
    · simp [hempty]
    · intro s hs _
      simpa [enforceQuotaSweep, h] using hs.length_le
    · intro maxGB hgb
      simp [enforceQuota, hgb]
  · have happ := quotaSurvivors_append_deleted maxBytes (idbTotalSize storeByAge) storeByAge 0
    refine ⟨?_, ?_, ?_, enforceQuotaSweep_suffix _ _, ?_, ?_⟩
    · simpa [enforceQuotaSweep, h] using
        quotaSurvivors_size_le maxBytes (idbTotalSize storeByAge) storeByAge 0 hinv
    · simpa [enforceQuotaSweep, h] using happ
    · have hsub : List.Sublist
          (quotaDeleted maxBytes (idbTotalSize storeByAge) 0 storeByAge) storeByAge := by
        conv_rhs => rw [← happ]
        exact List.sublist_append_left _ _
      exact hsorted.sublist hsub
    · intro s hs hsize
      simpa [enforceQuotaSweep, h] using
        quotaSurvivors_maximal maxBytes (idbTotalSize storeByAge) storeByAge 0 hinv s hs hsize
    · intro maxGB hgb
      simp [enforceQuota, hgb]

/-- Witness for C1: the spec scenario.  Five 30 MB blobs inserted at times 1..5
with a 100 MB quota: the sweep retains exactly the 3 newest (90 MB total) and
deletes the 2 oldest, and the general theorem applies to this state. -/
theorem quota_sweep_retains_newest_witness :
    (([⟨"u1", 31457280, 1⟩, ⟨"u2", 31457280, 2⟩, ⟨"u3", 31457280, 3⟩,
       ⟨"u4", 31457280, 4⟩, ⟨"u5", 31457280, 5⟩] : List CachedBlob).Pairwise
        (fun a b => a.ts ≤ b.ts)) ∧
    idbTotalSize (enforceQuotaSweep 104857600
      [⟨"u1", 31457280, 1⟩, ⟨"u2", 31457280, 2⟩, ⟨"u3", 31457280, 3⟩,
       ⟨"u4", 31457280, 4⟩, ⟨"u5", 31457280, 5⟩]) ≤ 104857600 ∧
    enforceQuotaSweep 104857600
      [⟨"u1", 31457280, 1⟩, ⟨"u2", 31457280, 2⟩, ⟨"u3", 31457280, 3⟩,
       ⟨"u4", 31457280, 4⟩, ⟨"u5", 31457280, 5⟩] =
      [⟨"u3", 31457280, 3⟩, ⟨"u4", 31457280, 4⟩, ⟨"u5", 31457280, 5⟩] :=
  ⟨by decide, (quota_sweep_retains_newest 104857600 _ (by decide)).1, by decide⟩

theorem ttlSweep_mem (cutoff : Nat) (store : List CachedBlob) (b : CachedBlob) :
    b ∈ ttlSweep cutoff store ↔ b ∈ store ∧ ¬ b.ts < cutoff := by
  induction store with
  | nil => simp [ttlSweep]
  | cons c rest ih =>
    by_cases h : c.ts < cutoff
    · simp only [ttlSweep, if_pos h, ih, List.mem_cons]
      constructor
      · rintro ⟨hb, hts⟩; exact ⟨Or.inr hb, hts⟩
      · rintro ⟨hb | hb, hts⟩
        · subst hb; exact absurd h hts
        · exact ⟨hb, hts⟩
    · simp only [ttlSweep, if_neg h, List.mem_cons, ih]
      constructor
      · rintro (rfl | ⟨hb, hts⟩)
        · exact ⟨Or.inl rfl, h⟩
        · exact ⟨Or.inr hb, hts⟩
      · rintro ⟨rfl | hb, hts⟩
        · exact Or.inl rfl
        · exact Or.inr ⟨hb, hts⟩

/-- C7.  The TTL sweep `cleanupCache` (background.js), run with a configured
(non-zero) `ttlDays` on any cache state: with `cutoff = now - ttlDays` (in
milliseconds), a blob remains in the store if and only if it was there before and
its insertion timestamp is not earlier than the cutoff — so no remaining blob has
`ts < cutoff`, and every blob with `ts < cutoff` is deleted.  `cleanupCache` never
consults the quota or `maxGB`, so this holds regardless of quota state.  (The
settings page always persists `ttlDays >= 1`: `+ttlDaysInput.value || 7`, so the
guarded no-op branch `!settings.ttlDays` is unreachable from saved settings.) -/
theorem ttl_sweep_removes_expired (ttlDays now : Nat) (store : List CachedBlob)
    (httl : 0 < ttlDays) :
    (∀ b ∈ cleanupCache ttlDays now store, ¬ b.ts < ttlCutoff now ttlDays) ∧
    (∀ b ∈ store, b.ts < ttlCutoff now ttlDays → b ∉ cleanupCache ttlDays now store) ∧
    (∀ b, b ∈ cleanupCache ttlDays now store ↔
      b ∈ store ∧ ¬ b.ts < ttlCutoff now ttlDays) := by
  have hguard : cleanupCache ttlDays now store = ttlSweep (ttlCutoff now ttlDays) store := by
    unfold cleanupCache
    simp [Nat.pos_iff_ne_zero.mp httl]
  refine ⟨?_, ?_, ?_⟩
  · intro b hb
    rw [hguard, ttlSweep_mem] at hb
    exact hb.2
  · intro b _ hts hb
    rw [hguard, ttlSweep_mem] at hb
    exact hb.2 hts
  · intro b
    rw [hguard, ttlSweep_mem]

/-- Witness for C7: with `ttlDays = 7` and `now` at 10 days (in ms), a blob
inserted at time 0 is evicted and one inserted at 9 days survives. -/
theorem ttl_sweep_removes_expired_witness :
    0 < 7 ∧
    (∀ b ∈ cleanupCache 7 864000000 [⟨"old", 5, 0⟩, ⟨"new", 5, 777600000⟩],
      ¬ b.ts < ttlCutoff 864000000 7) ∧
    cleanupCache 7 864000000 [⟨"old", 5, 0⟩, ⟨"new", 5, 777600000⟩] =
      [⟨"new", 5, 777600000⟩] :=
  ⟨by decide,
   (ttl_sweep_removes_expired 7 864000000 [⟨"old", 5, 0⟩, ⟨"new", 5, 777600000⟩]
      (by decide)).1,
   by decide⟩

/-- Counterexample for C4 as stated: for "abcde" vs "abcdfxxxxxx" the claim's
criterion accepts (4 of the 5 positions of the shorter name match: 80 %), but
the code rejects, because its length-ratio cutoff fires
(`2 * 5 < 11`, i.e. `minLength / maxLength < 0.5`). -/
theorem names_matching_claim_counterexample :
    specNameMatchCriterion "abcde".data "abcdfxxxxxx".data ∧
    arePatientNamesMatching "abcde".data "abcdfxxxxxx".data = false := by
  unfold specNameMatchCriterion
  decide

/-- C4, amended.  `arePatientNamesMatching` normalizes case and punctuation and
accepts two names iff both are non-empty and the normalized strings are equal,
one contains the other, or — provided the shorter normalized string is at least
half as long as the longer — the per-character similarity is at least 80 % over
the shorter string's length; in particular it accepts
("SMITH, JOHN", "Smith John") and rejects ("SMITH, JOHN", "DOE, JANE"). -/
theorem names_matching_characterization :
    (∀ name1 name2 : List Char,
      arePatientNamesMatching name1 name2 = true ↔
        (name1 ≠ [] ∧ name2 ≠ [] ∧
          (normalizeName name1 = normalizeName name2 ∨
           normalizeName name2 <:+: normalizeName name1 ∨
           normalizeName name1 <:+: normalizeName name2 ∨
           (max (normalizeName name1).length (normalizeName name2).length ≤
              2 * min (normalizeName name1).length (normalizeName name2).length ∧
            4 * min (normalizeName name1).length (normalizeName name2).length ≤
              5 * matchCount (normalizeName name1) (normalizeName name2))))) ∧
    arePatientNamesMatching "SMITH, JOHN".data "Smith John".data = true ∧
    arePatientNamesMatching "SMITH, JOHN".data "DOE, JANE".data = false := by
  refine ⟨?_, by decide, by decide⟩
  intro name1 name2
  unfold arePatientNamesMatching
  split_ifs with h1 h2 h3 h4
  · simp only [Bool.false_eq_true, false_iff]
    tauto
  · simp only [true_iff]
    exact ⟨fun h => h1 (Or.inl h), fun h => h1 (Or.inr h), Or.inl h2⟩
  · simp only [true_iff]
    exact ⟨fun h => h1 (Or.inl h), fun h => h1 (Or.inr h),
      h3.elim (fun h => Or.inr (Or.inl h)) (fun h => Or.inr (Or.inr (Or.inl h)))⟩
  · simp only [Bool.false_eq_true, false_iff]
    rintro ⟨-, -, hcrit | hcrit | hcrit | ⟨hlen, -⟩⟩
    · exact h2 hcrit
    · exact h3 (Or.inl hcrit)
    · exact h3 (Or.inr hcrit)
    · omega
  · rw [decide_eq_true_iff]
    rw [Nat.not_lt] at h4
    constructor
    · intro hsim
      exact ⟨fun h => h1 (Or.inl h), fun h => h1 (Or.inr h),
        Or.inr (Or.inr (Or.inr ⟨h4, hsim⟩))⟩
    · rintro ⟨-, -, hcrit | hcrit | hcrit | ⟨-, hsim⟩⟩
      · exact absurd hcrit h2
      · exact absurd (Or.inl hcrit) h3
      · exact absurd (Or.inr hcrit) h3
      · exact hsim

/-- Counterexample for C9 as stated: with 4 studies and the default limit 3, as
soon as the first download completes, study 4 is started while studies 2 and 3 of
the "first batch" are still in flight — a sliding window, not batch-synchronous
processing.  (The poll-cycle paths `pollWorklist` and `handleTriggerDownloads`
do not batch at all: they download strictly sequentially.) -/
theorem download_batching_counterexample :
    (runSched 3 [1, 2, 3, 4] [0]).active = [2, 3, 4] ∧
    (runSched 3 [1, 2, 3, 4] [0]).done = [1] ∧
    ¬ firstBatchAwaited 3 [1, 2, 3, 4] := by
  refine ⟨by decide, by decide, ?_⟩
  intro h
  have h2 := h [0] 4 (by decide) (by decide) 2 (by decide)
  exact absurd h2 (by decide)

theorem refillSlots_length_le (maxConcurrent : Nat) :
    ∀ (q active : List Nat), active.length ≤ maxConcurrent →
      ((refillSlots maxConcurrent q active).2).length ≤ maxConcurrent := by
  intro q
  induction q with
  | nil => intro active h; simpa [refillSlots] using h
  | cons s rest ih =>
    intro active h
    by_cases hlt : active.length < maxConcurrent
    · have := ih (active ++ [s]) (by simp; omega)
      simpa [refillSlots, hlt] using this
    · simpa [refillSlots, hlt] using h

theorem schedComplete_active_le (maxConcurrent : Nat) (st : SchedState) (i : Nat)
    (h : st.active.length ≤ maxConcurrent) :
    (schedComplete maxConcurrent st i).active.length ≤ maxConcurrent := by
  unfold schedComplete
  by_cases hi : i < st.active.length
  · simp only [hi, dif_pos]
    exact refillSlots_length_le maxConcurrent st.queue (st.active.eraseIdx i)
      (le_trans (st.active.eraseIdx_sublist i).length_le h)
  · simpa [hi] using h

/-- C9, amended.  The bulk download path `downloadStudiesInParallel` runs a
bounded worker pool, not batches: at no point are more than `maxConcurrent`
downloads in flight (so with the default `options.maxConcurrent || 3`, never more
than 3), but a completed download's slot is refilled immediately from the queue
(sliding window) rather than awaiting the rest of its batch, and the poll-cycle
paths download sequentially. -/
theorem download_concurrency_cap :
    (∀ (maxConcurrent : Nat) (studies choices : List Nat),
      (runSched maxConcurrent studies choices).active.length ≤ maxConcurrent) ∧
    triggerMaxConcurrent none = 3 ∧
    (∀ (studies choices : List Nat),
      (runSched (triggerMaxConcurrent none) studies choices).active.length ≤ 3) := by
  have hrun : ∀ (maxConcurrent : Nat) (choices : List Nat) (st : SchedState),
      st.active.length ≤ maxConcurrent →
      (choices.foldl (schedComplete maxConcurrent) st).active.length ≤ maxConcurrent := by
    intro maxConcurrent choices
    induction choices with
    | nil => intro st h; simpa using h
    | cons c rest ih =>
      intro st h
      exact ih (schedComplete maxConcurrent st c)
        (schedComplete_active_le maxConcurrent st c h)
  have hmain : ∀ (maxConcurrent : Nat) (studies choices : List Nat),
      (runSched maxConcurrent studies choices).active.length ≤ maxConcurrent := by
    intro maxConcurrent studies choices
    refine hrun maxConcurrent choices (schedStart maxConcurrent studies) ?_
    exact refillSlots_length_le maxConcurrent studies [] (by simp)
  exact ⟨hmain, rfl, fun studies choices => hmain 3 studies choices⟩

/-- C5.  For every payload `P` and randomness state, decrypting the output of
`encryptBlob` returns `P` unchanged; the call draws its key (256-bit, i.e.
`< 2^256`) and IV (96-bit, i.e. `< 2^96`) freshly from the two next positions of
the randomness source, and advances the source past them (so no two calls reuse
a position: each call's key and IV are fresh random draws); and decrypting the
ciphertext with any wrong key or IV fails with `DecryptionError` (`none`) rather
than returning data. -/
theorem encrypt_roundtrip_and_reject (rng : RandomSource) (blob : List Nat) :
    decryptToBlob (encryptBlob rng blob).1 = some blob ∧
    (encryptBlob rng blob).1.key = rng.stream rng.pos % 2 ^ 256 ∧
    (encryptBlob rng blob).1.iv = rng.stream (rng.pos + 1) % 2 ^ 96 ∧
    (encryptBlob rng blob).1.key < 2 ^ 256 ∧
    (encryptBlob rng blob).1.iv < 2 ^ 96 ∧
    (encryptBlob rng blob).2.pos = rng.pos + 2 ∧
    (encryptBlob rng blob).1.originalSize = blob.length ∧
    (∀ key iv : Nat,
      key ≠ (encryptBlob rng blob).1.key ∨ iv ≠ (encryptBlob rng blob).1.iv →
      subtleDecrypt key iv (encryptBlob rng blob).1.cipherText = none) := by
  refine ⟨?_, rfl, rfl, ?_, ?_, rfl, rfl, ?_⟩
  · simp [decryptToBlob, encryptBlob, subtleDecrypt, subtleEncrypt]
  · exact Nat.mod_lt _ (by positivity)
  · exact Nat.mod_lt _ (by positivity)
  · intro key iv hne
    simp only [encryptBlob, subtleDecrypt, subtleEncrypt] at hne ⊢
    rcases hne with h | h
    · rw [if_neg]
      rintro ⟨hk, -⟩; exact h hk.symm
    · rw [if_neg]
      rintro ⟨-, hiv⟩; exact h hiv.symm

/-- Witness for C5: a concrete run with a fixed randomness stream and payload
`[1, 2, 3]`, discharging the wrong-key hypothesis at `key = 0` (the stream below
yields key `5 ≠ 0`). -/
theorem encrypt_roundtrip_and_reject_witness :
    decryptToBlob (encryptBlob ⟨fun n => n + 5, 0⟩ [1, 2, 3]).1 = some [1, 2, 3] ∧
    subtleDecrypt 0 ((encryptBlob ⟨fun n => n + 5, 0⟩ [1, 2, 3]).1.iv)
      ((encryptBlob ⟨fun n => n + 5, 0⟩ [1, 2, 3]).1.cipherText) = none :=
  ⟨(encrypt_roundtrip_and_reject ⟨fun n => n + 5, 0⟩ [1, 2, 3]).1,
   (encrypt_roundtrip_and_reject ⟨fun n => n + 5, 0⟩ [1, 2, 3]).2.2.2.2.2.2.2 0 _
     (Or.inl (by decide))⟩

theorem dbGet_some_id (db : List StudyRecord) (studyId : String) (r : StudyRecord)
    (h : dbGet db studyId = some r) : r.study_id = studyId := by
  have := List.find?_some h
  simpa using this

theorem find?_map_replace_self (rec : StudyRecord) :
    ∀ db : List StudyRecord,
      (db.map (fun r => if r.study_id == rec.study_id then rec else r)).find?
          (fun r => r.study_id == rec.study_id) =
        (db.find? (fun r => r.study_id == rec.study_id)).map (fun _ => rec) := by
  intro db
  induction db with
  | nil => rfl
  | cons r rest ih =>
    by_cases h : r.study_id = rec.study_id
    · simp [List.find?_cons, List.find?_map, Function.comp, h, ih]
    · simp only [List.find?_map, Function.comp, beq_iff_eq] at ih
      simp [List.find?_cons, List.find?_map, Function.comp, h, ih]

theorem find?_map_replace_other (rec : StudyRecord) (studyId : String)
    (hne : studyId ≠ rec.study_id) :
    ∀ db : List StudyRecord,
      (db.map (fun r => if r.study_id == rec.study_id then rec else r)).find?
          (fun r => r.study_id == studyId) =
        db.find? (fun r => r.study_id == studyId) := by
  intro db
  induction db with
  | nil => rfl
  | cons r rest ih =>
    have hne2 : rec.study_id ≠ studyId := Ne.symm hne
    simp only [List.find?_map, Function.comp, beq_iff_eq] at ih
    by_cases h : r.study_id = rec.study_id
    · have h2 : r.study_id ≠ studyId := h ▸ hne2
      simp [List.find?_cons, List.find?_map, Function.comp, h, hne2, h2, ih]
    · by_cases h2 : r.study_id = studyId
      · simp [List.find?_cons, List.find?_map, Function.comp, h, h2, hne, hne2]
      · simp [List.find?_cons, List.find?_map, Function.comp, h, h2, ih]

theorem dbGet_dbPutRaw_self (db : List StudyRecord) (rec : StudyRecord) :
    dbGet (dbPutRaw db rec) rec.study_id = some rec := by
  unfold dbPutRaw dbGet
  by_cases hany : db.any (fun r => r.study_id == rec.study_id)
  · rw [if_pos hany, find?_map_replace_self]
    have hex : ∃ x, db.find? (fun r => r.study_id == rec.study_id) = some x := by
      rw [← Option.isSome_iff_exists, List.find?_isSome]
      simpa [List.any_eq_true] using hany
    obtain ⟨x, hx⟩ := hex
    simp [hx]
  · rw [if_neg hany]
    have hnone : db.find? (fun r => r.study_id == rec.study_id) = none := by
      rw [List.find?_eq_none]
      intro x hx hbeq
      exact hany (List.any_eq_true.mpr ⟨x, hx, hbeq⟩)
    rw [List.find?_append, hnone]
    simp [List.find?_cons]

theorem dbGet_dbPutRaw_other (db : List StudyRecord) (rec : StudyRecord)
    (studyId : String) (hne : studyId ≠ rec.study_id) :
    dbGet (dbPutRaw db rec) studyId = dbGet db studyId := by
  unfold dbPutRaw dbGet
  by_cases hany : db.any (fun r => r.study_id == rec.study_id)
  · rw [if_pos hany, find?_map_replace_other rec studyId hne]
  · rw [if_neg hany, List.find?_append]
    have hb : (rec.study_id == studyId) = false :=
      beq_eq_false_iff_ne.mpr (Ne.symm hne)
    simp [List.find?_cons, hb]

/-- C6.  `studiesDbUpdateStatus` (core.js): for an id absent from the studies
store it rejects with the `not found` error and the store is unchanged — no
record is created; for an id present with record `study` it resolves with an
updated record that carries the requested `status`, `updated_at = now`, every
patch field merged over the existing record (fields absent from the patch are
preserved), writes exactly that record back under the same key, and leaves all
other records untouched. -/
theorem updateStatus_notfound_and_merge (db : List StudyRecord) (studyId : String)
    (status : StudyStatus) (patch : UpdatePatch) (now : String) :
    (dbGet db studyId = none →
      (studiesDbUpdateStatus db studyId status patch now).1 =
          .error (.notFound studyId) ∧
      (studiesDbUpdateStatus db studyId status patch now).2 = db) ∧
    (∀ study, dbGet db studyId = some study →
      ∃ updated,
        (studiesDbUpdateStatus db studyId status patch now).1 = .ok updated ∧
        updated.status = status ∧
        updated.updated_at = now ∧
        updated.study_id = studyId ∧
        updated.study_instance_uuid =
          patch.study_instance_uuid.getD study.study_instance_uuid ∧
        updated.file_path = patch.file_path.getD study.file_path ∧
        updated.file_size = patch.file_size.getD study.file_size ∧
        updated.download_time = patch.download_time.getD study.download_time ∧
        updated.download_id = patch.download_id.getD study.download_id ∧
        updated.error = patch.error.getD study.error ∧
        updated.retry_count = patch.retry_count.getD study.retry_count ∧
        updated.last_retry = patch.last_retry.getD study.last_retry ∧
        updated.delete_time = patch.delete_time.getD study.delete_time ∧
        updated.patient_name = study.patient_name ∧
        updated.created_at = study.created_at ∧
        dbGet (studiesDbUpdateStatus db studyId status patch now).2 studyId =
          some updated ∧
        (∀ otherId, otherId ≠ studyId →
          dbGet (studiesDbUpdateStatus db studyId status patch now).2 otherId =
            dbGet db otherId)) := by
  constructor
  · intro h
    simp [studiesDbUpdateStatus, h]
  · intro study h
    have hid : study.study_id = studyId := dbGet_some_id db studyId study h
    refine ⟨applyUpdate study status now patch, ?_, rfl, rfl, hid, rfl, rfl, rfl, rfl,
      rfl, rfl, rfl, rfl, rfl, rfl, rfl, ?_, ?_⟩
    · simp [studiesDbUpdateStatus, h]
    · have hput := dbGet_dbPutRaw_self db (applyUpdate study status now patch)
      have hid' : (applyUpdate study status now patch).study_id = studyId := hid
      rw [hid'] at hput
      simpa [studiesDbUpdateStatus, h] using hput
    · intro otherId hne
      have hother := dbGet_dbPutRaw_other db (applyUpdate study status now patch)
        otherId (by simpa [applyUpdate, hid] using hne)
      simpa [studiesDbUpdateStatus, h] using hother

/-- Witness for C6: on a one-record store (id `"s1"`), updating the absent id
`"zzz"` rejects with `not found` and leaves the store unchanged, while updating
`"s1"` to ERROR succeeds with the new status. -/
theorem updateStatus_notfound_and_merge_witness :
    dbGet [studiesDbPutRecord { study_id := "s1" } "t0"] "zzz" = none ∧
    (studiesDbUpdateStatus [studiesDbPutRecord { study_id := "s1" } "t0"] "zzz"
        .downloaded {} "t1").1 = .error (.notFound "zzz") ∧
    (studiesDbUpdateStatus [studiesDbPutRecord { study_id := "s1" } "t0"] "zzz"
        .downloaded {} "t1").2 = [studiesDbPutRecord { study_id := "s1" } "t0"] ∧
    (∃ updated,
      (studiesDbUpdateStatus [studiesDbPutRecord { study_id := "s1" } "t0"] "s1"
          .error {} "t1").1 = .ok updated ∧ updated.status = .error) := by
  have habsent := (updateStatus_notfound_and_merge
    [studiesDbPutRecord { study_id := "s1" } "t0"] "zzz" .downloaded {} "t1").1
    (by decide)
  have hpresent := (updateStatus_notfound_and_merge
    [studiesDbPutRecord { study_id := "s1" } "t0"] "s1" .error {} "t1").2
    (studiesDbPutRecord { study_id := "s1" } "t0") (by decide)
  obtain ⟨updated, hok, hst, -⟩ := hpresent
  exact ⟨by decide, habsent.1, habsent.2, updated, hok, hst⟩

/-- C2 is violated by the code: evaluating the program's own operations — sync a
new study, mark it for download, let `handleTriggerDownloads` succeed — yields a
record with `status = DOWNLOADED` and `file_path` still the empty string, so the
claimed invariant fails at a reachable state.  The repository itself treats such
records as defective: `fixStudyFilePaths` (study-manager) scans for
`status === DOWNLOADED && !study.file_path` and repairs them, so the spec states
the intent and `handleTriggerDownloads` omitting `file_path` is the slip. -/
theorem trigger_downloads_breaks_filepath_invariant :
    ∃ r, dbGet c2State2 "1.2.3" = some r ∧
      r.status = .downloaded ∧ r.file_path = some "" ∧
      ¬ statusFilePathInvariant r := by
  have h : dbGet c2State2 "1.2.3" = some
      { study_id := "1.2.3"
        patient_name := "SMITH_JOHN"
        patient_id := "MRN1"
        diag_centre_name := ""
        status := .downloaded
        download_time := some "t2"
        delete_time := none
        error := some .errNone
        created_at := "t0"
        updated_at := "t2"
        study_instance_uid := "1.2.3"
        study_instance_uuid := some ""
        file_path := some ""
        file_size := some 0
        priority := 0
        retry_count := 0
        last_retry := none
        download_id := none } := by decide
  refine ⟨_, h, rfl, rfl, ?_⟩
  unfold statusFilePathInvariant
  decide

theorem jsTruthyString_ne_some_empty (v : Option String) : jsTruthyString v ≠ some "" := by
  cases v with
  | none => simp [jsTruthyString]
  | some s =>
    by_cases h : s = ""
    · simp [jsTruthyString, h]
    · simp [jsTruthyString, h]

theorem dbGet_isSome_any (db : List StudyRecord) (studyId : String) :
    (dbGet db studyId).isSome ↔ db.any (fun r => r.study_id == studyId) = true := by
  simp [dbGet, List.find?_isSome, List.any_eq_true]

theorem dbPutRaw_presence (db : List StudyRecord) (rec : StudyRecord) (studyId : String)
    (h : (dbGet db studyId).isSome) : (dbGet (dbPutRaw db rec) studyId).isSome := by
  by_cases hid : studyId = rec.study_id
  · subst hid
    rw [dbGet_dbPutRaw_self]
    rfl
  · rw [dbGet_dbPutRaw_other db rec studyId hid]
    exact h

theorem dbPutRaw_map_id_of_present (db : List StudyRecord) (rec : StudyRecord)
    (h : (dbGet db rec.study_id).isSome) :
    (dbPutRaw db rec).map StudyRecord.study_id = db.map StudyRecord.study_id := by
  have hany : db.any (fun r => r.study_id == rec.study_id) = true :=
    (dbGet_isSome_any db rec.study_id).mp h
  unfold dbPutRaw
  rw [if_pos hany, List.map_map]
  apply List.map_congr_left
  intro r _
  by_cases hcase : r.study_id = rec.study_id
  · simp [Function.comp, hcase]
  · simp [Function.comp, hcase]

theorem storeStudiesGo_presence (now : String) :
    ∀ (studies : List StudyInput) (db : List StudyRecord) (stored updated : Nat)
      (studyId : String), (dbGet db studyId).isSome →
      (dbGet (storeStudiesGo now db studies stored updated).1 studyId).isSome := by
  intro studies
  induction studies with
  | nil =>
    intro db stored updated studyId h
    simpa [storeStudiesGo] using h
  | cons s rest ih =>
    intro db stored updated studyId h
    cases hs : dbGet db s.study_id with
    | some e =>
      simp only [storeStudiesGo, hs]
      exact ih _ _ _ studyId (dbPutRaw_presence _ _ _ h)
    | none =>
      simp only [storeStudiesGo, hs]
      exact ih _ _ _ studyId (dbPutRaw_presence _ _ _ h)

theorem storeStudiesGo_mem_present (now : String) :
    ∀ (studies : List StudyInput) (db : List StudyRecord) (stored updated : Nat),
      ∀ s ∈ studies,
        (dbGet (storeStudiesGo now db studies stored updated).1 s.study_id).isSome := by
  intro studies
  induction studies with
  | nil => intro db stored updated s hs; cases hs
  | cons t rest ih =>
    intro db stored updated s hs
    rcases List.mem_cons.mp hs with rfl | hmem
    · cases ht : dbGet db s.study_id with
      | some e =>
        simp only [storeStudiesGo, ht]
        refine storeStudiesGo_presence now rest _ _ _ s.study_id ?_
        have hself := dbGet_dbPutRaw_self db
          (studiesDbPutRecord (updatedStudyInput s e) now)
        rw [show (studiesDbPutRecord (updatedStudyInput s e) now).study_id = s.study_id
          from rfl] at hself
        unfold studiesDbPut
        rw [hself]
        rfl
      | none =>
        simp only [storeStudiesGo, ht]
        refine storeStudiesGo_presence now rest _ _ _ s.study_id ?_
        have hself := dbGet_dbPutRaw_self db (studiesDbPutRecord s now)
        rw [show (studiesDbPutRecord s now).study_id = s.study_id from rfl] at hself
        unfold studiesDbPut
        rw [hself]
        rfl
    · cases ht : dbGet db t.study_id with
      | some e =>
        simp only [storeStudiesGo, ht]
        exact ih _ _ _ s hmem
      | none =>
        simp only [storeStudiesGo, ht]
        exact ih _ _ _ s hmem

theorem storeStudiesGo_all_present_counts (now : String) :
    ∀ (studies : List StudyInput) (db : List StudyRecord) (stored updated : Nat),
      (∀ s ∈ studies, (dbGet db s.study_id).isSome) →
      (storeStudiesGo now db studies stored updated).2.1 = stored ∧
      (storeStudiesGo now db studies stored updated).2.2 = updated + studies.length := by
  intro studies
  induction studies with
  | nil => intro db stored updated _; simp [storeStudiesGo]
  | cons s rest ih =>
    intro db stored updated hpres
    obtain ⟨e, he⟩ := Option.isSome_iff_exists.mp (hpres s (List.mem_cons_self s rest))
    simp only [storeStudiesGo, he]
    have hrest : ∀ t ∈ rest,
        (dbGet (studiesDbPut db (updatedStudyInput s e) now) t.study_id).isSome :=
      fun t ht => dbPutRaw_presence _ _ _ (hpres t (List.mem_cons_of_mem s ht))
    obtain ⟨h1, h2⟩ := ih _ stored (updated + 1) hrest
    refine ⟨h1, ?_⟩
    rw [h2]
    simp [List.length_cons]
    omega

theorem storeStudiesGo_map_id (now : String) :
    ∀ (studies : List StudyInput) (db : List StudyRecord) (stored updated : Nat),
      (∀ s ∈ studies, (dbGet db s.study_id).isSome) →
      ((storeStudiesGo now db studies stored updated).1).map StudyRecord.study_id =
        db.map StudyRecord.study_id := by
  intro studies
  induction studies with
  | nil => intro db stored updated _; simp [storeStudiesGo]
  | cons s rest ih =>
    intro db stored updated hpres
    obtain ⟨e, he⟩ := Option.isSome_iff_exists.mp (hpres s (List.mem_cons_self s rest))
    simp only [storeStudiesGo, he]
    have hrest : ∀ t ∈ rest,
        (dbGet (studiesDbPut db (updatedStudyInput s e) now) t.study_id).isSome :=
      fun t ht => dbPutRaw_presence _ _ _ (hpres t (List.mem_cons_of_mem s ht))
    rw [ih _ stored (updated + 1) hrest]
    unfold studiesDbPut
    apply dbPutRaw_map_id_of_present
    rw [show (studiesDbPutRecord (updatedStudyInput s e) now).study_id = s.study_id
      from rfl]
    rw [he]
    rfl

theorem storeStudiesGo_preserves (now : String) :
    ∀ (studies : List StudyInput) (db : List StudyRecord) (stored updated : Nat)
      (studyId : String) (r : StudyRecord), dbGet db studyId = some r →
      ∃ r', dbGet (storeStudiesGo now db studies stored updated).1 studyId = some r' ∧
        r'.status = r.status ∧
        (r.created_at ≠ "" → r'.created_at = r.created_at) ∧
        (r.download_time ≠ some "" → r'.download_time = r.download_time) ∧
        (r.delete_time ≠ some "" → r'.delete_time = r.delete_time) := by
  intro studies
  induction studies with
  | nil =>
    intro db stored updated studyId r hget
    exact ⟨r, by simpa [storeStudiesGo] using hget, rfl, fun _ => rfl, fun _ => rfl,
      fun _ => rfl⟩
  | cons s rest ih =>
    intro db stored updated studyId r hget
    cases hs : dbGet db s.study_id with
    | none =>
      simp only [storeStudiesGo, hs]
      have hne : studyId ≠ s.study_id := by
        intro he
        rw [he, hs] at hget
        cases hget
      have hstep : dbGet (studiesDbPut db s now) studyId = some r := by
        unfold studiesDbPut
        rw [dbGet_dbPutRaw_other db _ studyId hne]
        exact hget
      exact ih _ _ _ studyId r hstep
    | some e =>
      simp only [storeStudiesGo, hs]
      by_cases hid : studyId = s.study_id
      · subst hid
        have hre : r = e := by
          rw [hget] at hs
          exact Option.some.inj hs
        rw [hre]
        have hself := dbGet_dbPutRaw_self db
          (studiesDbPutRecord (updatedStudyInput s e) now)
        rw [show (studiesDbPutRecord (updatedStudyInput s e) now).study_id = s.study_id
          from rfl] at hself
        have hstep : dbGet (studiesDbPut db (updatedStudyInput s e) now) s.study_id =
            some (studiesDbPutRecord (updatedStudyInput s e) now) := hself
        obtain ⟨r', hr', hst, hca, hdt, hdel⟩ :=
          ih (studiesDbPut db (updatedStudyInput s e) now) stored (updated + 1)
            s.study_id _ hstep
        refine ⟨r', hr', ?_, ?_, ?_, ?_⟩
        · rw [hst]; rfl
        · intro hne
          have h1 : (studiesDbPutRecord (updatedStudyInput s e) now).created_at =
              e.created_at := by
            simp [studiesDbPutRecord, updatedStudyInput, jsOrString, hne]
          have h2 := hca (by rw [h1]; exact hne)
          rw [h2, h1]
        · intro hne
          have h1 : (studiesDbPutRecord (updatedStudyInput s e) now).download_time =
              e.download_time := by
            cases hd : e.download_time with
            | none => simp [studiesDbPutRecord, updatedStudyInput, jsTruthyString, hd]
            | some sdt =>
              have hsdt : sdt ≠ "" := by
                intro hx
                rw [hd, hx] at hne
                exact hne rfl
              simp [studiesDbPutRecord, updatedStudyInput, jsTruthyString, hd, hsdt]
          have h2 := hdt (by rw [h1]; exact hne)
          rw [h2, h1]
        · intro hne
          have h1 : (studiesDbPutRecord (updatedStudyInput s e) now).delete_time =
              e.delete_time := by
            cases hd : e.delete_time with
            | none => simp [studiesDbPutRecord, updatedStudyInput, jsTruthyString, hd]
            | some sdt =>
              have hsdt : sdt ≠ "" := by
                intro hx
                rw [hd, hx] at hne
                exact hne rfl
              simp [studiesDbPutRecord, updatedStudyInput, jsTruthyString, hd, hsdt]
          have h2 := hdel (by rw [h1]; exact hne)
          rw [h2, h1]
      · have hstep : dbGet (studiesDbPut db (updatedStudyInput s e) now) studyId =
            some r := by
          unfold studiesDbPut
          rw [dbGet_dbPutRaw_other db _ studyId hid]
          exact hget
        exact ih _ _ _ studyId r hstep

theorem pollWorklistLoop_all_cached (filterStatus : Option String)
    (fetchStudy : WorklistStudy → Option CachedBlob) :
    ∀ (worklist : List WorklistStudy) (cache : List CachedBlob) (downloadCount : Nat),
      (∀ s ∈ worklist, idbHasStudy cache s.study_instance_uid = true) →
      pollWorklistLoop filterStatus fetchStudy worklist cache downloadCount =
        (cache, downloadCount) := by
  intro worklist
  induction worklist with
  | nil => intro cache count _; rfl
  | cons s rest ih =>
    intro cache count hcached
    have hhas : idbHasStudy cache s.study_instance_uid = true :=
      hcached s (List.mem_cons_self s rest)
    have hskip : shouldDownloadStudy cache filterStatus s = false := by
      simp [shouldDownloadStudy, hhas]
    simp only [pollWorklistLoop, hskip, Bool.false_eq_true, if_false]
    exact ih cache count (fun t ht => hcached t (List.mem_cons_of_mem s ht))

/-- C8.  Syncing the same worklist a second time with no state change in between
is idempotent: (a) the second `storeStudiesInDatabase` run stores zero new
records — every study takes the update path — and counts them all as `updated`;
(b) the store's keys are exactly those after the first run (records are upserted
by `study_id`, never duplicated); (c) every record's `status`, `created_at`,
`download_time` and `delete_time` survive the second run unchanged (for the
non-degenerate values the system writes: non-empty timestamps); and (d) the
poll-cycle download loop performs zero downloads when every worklist UID is
already cached, because `shouldDownloadStudy`'s has-check rejects each study. -/
theorem resync_idempotent (db : List StudyRecord) (studies : List StudyInput)
    (now1 now2 : String) :
    (storeStudiesInDatabase (storeStudiesInDatabase db studies now1).1 studies
        now2).2.stored = 0 ∧
    (storeStudiesInDatabase (storeStudiesInDatabase db studies now1).1 studies
        now2).2.updated = studies.length ∧
    ((storeStudiesInDatabase (storeStudiesInDatabase db studies now1).1 studies
        now2).1).map StudyRecord.study_id =
      ((storeStudiesInDatabase db studies now1).1).map StudyRecord.study_id ∧
    (∀ studyId r,
      dbGet (storeStudiesInDatabase db studies now1).1 studyId = some r →
      ∃ r', dbGet (storeStudiesInDatabase
          (storeStudiesInDatabase db studies now1).1 studies now2).1 studyId = some r' ∧
        r'.status = r.status ∧
        (r.created_at ≠ "" → r'.created_at = r.created_at) ∧
        (r.download_time ≠ some "" → r'.download_time = r.download_time) ∧
        (r.delete_time ≠ some "" → r'.delete_time = r.delete_time)) ∧
    (∀ (filterStatus : Option String) (fetchStudy : WorklistStudy → Option CachedBlob)
        (worklist : List WorklistStudy) (cache : List CachedBlob),
      (∀ s ∈ worklist, idbHasStudy cache s.study_instance_uid = true) →
      pollWorklistLoop filterStatus fetchStudy worklist cache 0 = (cache, 0)) := by
  have hpres : ∀ s ∈ studies,
      (dbGet (storeStudiesInDatabase db studies now1).1 s.study_id).isSome :=
    fun s hs => storeStudiesGo_mem_present now1 studies db 0 0 s hs
  obtain ⟨hstored, hupdated⟩ := storeStudiesGo_all_present_counts now2 studies
    (storeStudiesInDatabase db studies now1).1 0 0 hpres
  refine ⟨hstored, by simpa using hupdated, ?_, ?_, ?_⟩
  · exact storeStudiesGo_map_id now2 studies _ 0 0 hpres
  · intro studyId r hget
    exact storeStudiesGo_preserves now2 studies _ 0 0 studyId r hget
  · intro filterStatus fetchStudy worklist cache hcached
    exact pollWorklistLoop_all_cached filterStatus fetchStudy worklist cache 0 hcached

/-- Witness for C8: a one-study worklist synced twice from an empty store — the
second run stores nothing and preserves the record's status — and a one-entry
worklist whose UID is already cached produces zero downloads. -/
theorem resync_idempotent_witness :
    (storeStudiesInDatabase
        (storeStudiesInDatabase [] [{ study_id := "x1" }] "t1").1
        [{ study_id := "x1" }] "t2").2.stored = 0 ∧
    pollWorklistLoop none (fun _ => none)
      [⟨"1.2.3", "SMITH_JOHN", "", "READY"⟩] [⟨"1.2.3", 9, 1⟩] 0 =
      ([⟨"1.2.3", 9, 1⟩], 0) :=
  ⟨(resync_idempotent [] [{ study_id := "x1" }] "t1" "t2").1,
   (resync_idempotent [] [{ study_id := "x1" }] "t1" "t2").2.2.2.2 none (fun _ => none)
     [⟨"1.2.3", "SMITH_JOHN", "", "READY"⟩] [⟨"1.2.3", 9, 1⟩] (by decide)⟩

theorem dbGet_put_applyUpdate (db : List StudyRecord) (r0 : StudyRecord)
    (studyId : String) (status : StudyStatus) (patch : UpdatePatch) (now : String)
    (hrec : dbGet db studyId = some r0) :
    dbGet (dbPutRaw db (applyUpdate r0 status now patch)) studyId =
      some (applyUpdate r0 status now patch) := by
  have hid0 : r0.study_id = studyId := dbGet_some_id db studyId r0 hrec
  have h := dbGet_dbPutRaw_self db (applyUpdate r0 status now patch)
  have hidu : (applyUpdate r0 status now patch).study_id = studyId := hid0
  rw [hidu] at h
  exact h

theorem mismatchGuard_eq_true_iff (expected : String) (actual : Option String) :
    mismatchGuard expected actual = true ↔
      ∃ a, actual = some a ∧ expected ≠ "" ∧ a ≠ "" ∧
        arePatientNamesMatching expected.data a.data = false := by
  cases actual with
  | none => simp [mismatchGuard]
  | some a =>
    by_cases he : expected = ""
    · simp [mismatchGuard, he]
    · by_cases ha : a = ""
      · simp [mismatchGuard, he, ha]
      · simp [mismatchGuard, he, ha]

/-- C3.  When the resolved remote patient name fails the fuzzy match against the
locally held one (both non-empty), `downloadSingleStudy` fails with the
`PatientMismatch` error, the record's status is set to ERROR carrying that error
message with `retry_count` incremented by 1 and `last_retry` set, and no file is
written to storage (`savedFiles` unchanged — the throw happens before
`downloadStudyZip`/`saveZipFile` run). -/
theorem patient_mismatch_aborts_download (env : DownloadEnv) (study r0 : StudyRecord)
    (tok : String) (db : List StudyRecord) (savedFiles : List ZipFile) (now : String)
    (res : ResolveResult) (actual : String)
    (huid : study.study_instance_uid ≠ "")
    (htok : tok ≠ "")
    (hres : env.resolve = some res)
    (hvalid : ¬ (res.uuid = "" ∨ res.uuid = "undefined" ∨
      res.uuid.data.all Char.isWhitespace))
    (hactual : res.patientName = some actual)
    (hexp : study.patient_name ≠ "") (hact : actual ≠ "")
    (hmatch : arePatientNamesMatching study.patient_name.data actual.data = false)
    (hrec : dbGet db study.study_id = some r0) :
    (downloadSingleStudy env study (some tok) db savedFiles now).result.success = false ∧
    (downloadSingleStudy env study (some tok) db savedFiles now).result.error =
      some (.patientMismatch study.patient_name actual) ∧
    (downloadSingleStudy env study (some tok) db savedFiles now).savedFiles =
      savedFiles ∧
    ∃ r', dbGet (downloadSingleStudy env study (some tok) db savedFiles now).db
        study.study_id = some r' ∧
      r'.status = .error ∧
      r'.error = some (.patientMismatch study.patient_name actual) ∧
      r'.retry_count = study.retry_count + 1 ∧
      r'.last_retry = some now := by
  have hc2 : ¬ ((some tok : Option String) = none ∨ (some tok : Option String) = some "") := by
    rintro (h | h)
    · cases h
    · exact htok (Option.some.inj h)
  have hguard : mismatchGuard study.patient_name res.patientName = true := by
    rw [mismatchGuard_eq_true_iff]
    exact ⟨actual, hactual, hexp, hact, hmatch⟩
  have hout : downloadSingleStudy env study (some tok) db savedFiles now =
      downloadFail study (.patientMismatch study.patient_name actual) now db savedFiles := by
    simp only [downloadSingleStudy, if_neg huid, if_neg hc2, hres, if_neg hvalid,
      hactual, Option.getD_some]
    rw [if_pos (hactual ▸ hguard)]
  rw [hout]
  refine ⟨rfl, rfl, rfl, ?_⟩
  unfold downloadFail
  simp only [studiesDbUpdateStatus, hrec]
  exact ⟨applyUpdate r0 .error now
      (downloadFailurePatch (.patientMismatch study.patient_name actual)
        study.retry_count now),
    dbGet_put_applyUpdate db r0 study.study_id .error _ now hrec, rfl, rfl, rfl, rfl⟩

/-- Witness for C3: the spec scenario — local record `"SMITH, JOHN"`, resolved
patient `"DOE, JANE"` — on a one-record store.  The download fails with
`PatientMismatch`, the record goes to ERROR with `retry_count` 1, and no file is
saved. -/
theorem patient_mismatch_aborts_download_witness :
    (downloadSingleStudy ⟨some ⟨"uuid-1", some "DOE, JANE"⟩, some ⟨"C:/f.zip", 100, 7⟩⟩
        (studiesDbPutRecord smithInput "t0") (some "tok")
        [studiesDbPutRecord smithInput "t0"] [] "t1").result.success = false ∧
    (downloadSingleStudy ⟨some ⟨"uuid-1", some "DOE, JANE"⟩, some ⟨"C:/f.zip", 100, 7⟩⟩
        (studiesDbPutRecord smithInput "t0") (some "tok")
        [studiesDbPutRecord smithInput "t0"] [] "t1").result.error =
      some (.patientMismatch "SMITH, JOHN" "DOE, JANE") ∧
    (downloadSingleStudy ⟨some ⟨"uuid-1", some "DOE, JANE"⟩, some ⟨"C:/f.zip", 100, 7⟩⟩
        (studiesDbPutRecord smithInput "t0") (some "tok")
        [studiesDbPutRecord smithInput "t0"] [] "t1").savedFiles = [] := by
  have h := patient_mismatch_aborts_download
    ⟨some ⟨"uuid-1", some "DOE, JANE"⟩, some ⟨"C:/f.zip", 100, 7⟩⟩
    (studiesDbPutRecord smithInput "t0") (studiesDbPutRecord smithInput "t0")
    "tok" [studiesDbPutRecord smithInput "t0"] [] "t1"
    ⟨"uuid-1", some "DOE, JANE"⟩ "DOE, JANE"
    (by decide) (by decide) rfl (by decide) rfl (by decide) (by decide)
    (by decide) (by decide)
  exact ⟨h.1, h.2.1, h.2.2.1⟩

/-- C10.  The patient-name cross-check in `downloadSingleStudy` is guarded by
`expectedPatientName && actualPatientName && !arePatientNamesMatching(...)`:
(1) if the locally held name is empty or the resolved name is absent or empty,
the check is skipped entirely and the download proceeds (succeeding whenever the
remaining steps do); and (2) a `PatientMismatch` failure can only arise when
both names are non-empty and the fuzzy match fails. -/
theorem empty_name_skips_check :
    (∀ (env : DownloadEnv) (study r0 : StudyRecord) (tok : String)
        (db : List StudyRecord) (savedFiles : List ZipFile) (now : String)
        (res : ResolveResult) (zip : ZipFile),
      study.study_instance_uid ≠ "" → tok ≠ "" →
      env.resolve = some res →
      ¬ (res.uuid = "" ∨ res.uuid = "undefined" ∨
        res.uuid.data.all Char.isWhitespace) →
      (study.patient_name = "" ∨ res.patientName = none ∨ res.patientName = some "") →
      env.fetchZip = some zip →
      dbGet db study.study_id = some r0 →
      (downloadSingleStudy env study (some tok) db savedFiles now).result.success =
        true ∧
      (downloadSingleStudy env study (some tok) db savedFiles now).result.error =
        none) ∧
    (∀ (env : DownloadEnv) (study : StudyRecord) (token : Option String)
        (db : List StudyRecord) (savedFiles : List ZipFile) (now : String)
        (expected actual : String),
      (downloadSingleStudy env study token db savedFiles now).result.error =
        some (.patientMismatch expected actual) →
      expected = study.patient_name ∧ expected ≠ "" ∧ actual ≠ "" ∧
      (∃ res, env.resolve = some res ∧ res.patientName = some actual) ∧
      arePatientNamesMatching study.patient_name.data actual.data = false) := by
  constructor
  · intro env study r0 tok db savedFiles now res zip huid htok hres hvalid hskip hzip hrec
    have hc2 : ¬ ((some tok : Option String) = none ∨
        (some tok : Option String) = some "") := by
      rintro (h | h)
      · cases h
      · exact htok (Option.some.inj h)
    have hguard : mismatchGuard study.patient_name res.patientName = false := by
      rcases hskip with he | hn | he2
      · cases hpn : res.patientName with
        | none => simp [mismatchGuard]
        | some a => simp [mismatchGuard, he]
      · simp [mismatchGuard, hn]
      · simp [mismatchGuard, he2]
    have hget1 := dbGet_put_applyUpdate db r0 study.study_id .download
      { study_instance_uuid := some (some res.uuid) } now hrec
    constructor
    · simp only [downloadSingleStudy, if_neg huid, if_neg hc2, hres, if_neg hvalid,
        hguard, Bool.false_eq_true, if_false, studiesDbUpdateStatus, hrec, hget1, hzip]
    · simp only [downloadSingleStudy, if_neg huid, if_neg hc2, hres, if_neg hvalid,
        hguard, Bool.false_eq_true, if_false, studiesDbUpdateStatus, hrec, hget1, hzip]
  · intro env study token db savedFiles now expected actual herr
    unfold downloadSingleStudy at herr
    split at herr
    · simp [downloadFail] at herr
    · split at herr
      · simp [downloadFail] at herr
      · split at herr
        · simp [downloadFail] at herr
        · rename_i res hres
          split at herr
          · simp [downloadFail] at herr
          · split at herr
            · rename_i hguard
              simp [downloadFail] at herr
              obtain ⟨a, hpn, hexp, hane, hmatch⟩ :=
                (mismatchGuard_eq_true_iff _ _).mp hguard
              obtain ⟨ha, hb⟩ := herr
              rw [hpn, Option.getD_some] at hb
              subst hb
              refine ⟨ha.symm, ?_, hane, ⟨res, hres, hpn⟩, hmatch⟩
              rw [← ha]
              exact hexp
            · split at herr
              · simp [downloadFail] at herr
              · split at herr
                · simp [downloadFail] at herr
                · split at herr
                  · simp [downloadFail] at herr
                  · simp at herr

/-- Witness for C10: a record whose locally held patient name is empty — the
name check is skipped even though the resolved name is `"DOE, JANE"`, and the
download succeeds. -/
theorem empty_name_skips_check_witness :
    (downloadSingleStudy ⟨some ⟨"uuid-2", some "DOE, JANE"⟩, some ⟨"C:/g.zip", 50, 8⟩⟩
        (studiesDbPutRecord { study_id := "s2", study_instance_uid := some "1.2.4" } "t0")
        (some "tok")
        [studiesDbPutRecord { study_id := "s2", study_instance_uid := some "1.2.4" } "t0"]
        [] "t1").result.success = true :=
  (empty_name_skips_check.1
    ⟨some ⟨"uuid-2", some "DOE, JANE"⟩, some ⟨"C:/g.zip", 50, 8⟩⟩
    (studiesDbPutRecord { study_id := "s2", study_instance_uid := some "1.2.4" } "t0")
    (studiesDbPutRecord { study_id := "s2", study_instance_uid := some "1.2.4" } "t0")
    "tok"
    [studiesDbPutRecord { study_id := "s2", study_instance_uid := some "1.2.4" } "t0"]
    [] "t1" ⟨"uuid-2", some "DOE, JANE"⟩ ⟨"C:/g.zip", 50, 8⟩
    (by decide) (by decide) rfl (by decide) (Or.inl (by decide)) rfl (by decide)).1

end Photonic
